import Mathlib

/-!
# QtWebApp HTTP server core — shallow embedding

Verification of the response writer (`HttpResponse`, from
`src/QtWebApp/httpserver/httpresponse.cpp`) and the per-connection
dispatch logic (`HttpConnectionHandler::read` and
`HttpConnectionHandler::readTimeout`, from
`src/QtWebApp/httpserver/httpconnectionhandler.cpp`).

Byte arrays (`QByteArray`) are modelled as `String` (the payloads in
question are ASCII header text plus opaque body bytes, for which
character count coincides with byte count).  `QMap<QByteArray,QByteArray>`
is modelled as an association list kept sorted by key, with
insert-or-replace semantics.  Socket output is modelled as the list of
byte chunks passed to the socket, in order.  `Q_ASSERT` guards are
modelled as refusal: operations whose precondition fails return `none`
(for the public setters) or stop the run (for `write` after the last
part was sent).
-/

/-- Lower-case a string (ASCII case folding, as used by
`QString::compare(..., Qt::CaseInsensitive)` on the header values that
occur here). -/
def strLower (s : String) : String := String.mk (s.data.map Char.toLower)

/-- Case-insensitive equality of two strings; the embedding of
`QString::compare(a, b, Qt::CaseInsensitive) == 0`. -/
def ciEq (a b : String) : Bool := strLower a == strLower b

/-- `QMap<QByteArray,QByteArray>`: an association list sorted by key. -/
abbrev StrMap := List (String × String)

/-- Byte-wise lexicographic order on character lists (the order of
`QByteArray::operator<` used for `QMap` keys). -/
def strLtB : List Char → List Char → Bool
  | [], [] => false
  | [], _ :: _ => true
  | _ :: _, [] => false
  | a :: as, b :: bs =>
      if a.toNat < b.toNat then true
      else if b.toNat < a.toNat then false
      else strLtB as bs

/-- Byte-wise lexicographic order on strings. -/
def strLt (a b : String) : Bool := strLtB a.data b.data

/-- `QMap::insert`: replace the value if the key is present, otherwise
insert at the sorted position. -/
def mapInsert : StrMap → String → String → StrMap
  | [], k, v => [(k, v)]
  | (k', v') :: rest, k, v =>
    if k = k' then (k, v) :: rest
    else if strLt k k' = true then (k, v) :: (k', v') :: rest
    else (k', v') :: mapInsert rest k v

/-- `QMap::value(key, defaultValue)`: the value at `k`, or `d` when the
key is absent. -/
def mapValue : StrMap → String → String → String
  | [], _, d => d
  | (k', v') :: rest, k, d => if k = k' then v' else mapValue rest k d

/-- `QMap::contains`. -/
def mapContains : StrMap → String → Bool
  | [], _ => false
  | (k', _) :: rest, k => if k = k' then true else mapContains rest k

/-- State of a `HttpResponse` object together with the bytes it has put
on the socket (`output` lists the chunks handed to the socket, in
order).  Fields mirror `httpresponse.h`/`httpresponse.cpp`. -/
structure HttpResponseState where
  statusCode : Nat
  statusText : String
  headers : StrMap
  cookies : StrMap
  sentHeaders : Bool
  sentLastPart : Bool
  chunkedMode : Bool
  output : List String
  deriving Repr, DecidableEq

/-- The state set up by the constructor `HttpResponse::HttpResponse`. -/
def freshResponse : HttpResponseState :=
  { statusCode := 200, statusText := "OK", headers := [], cookies := [],
    sentHeaders := false, sentLastPart := false, chunkedMode := false,
    output := [] }

/-- A fresh response whose header map has been pre-populated (by the
connection handler and/or the application handler) before the first
body write. -/
def mkResponse (hdrs : StrMap) : HttpResponseState :=
  { freshResponse with headers := hdrs }

/-- `QByteArray::number(n, 16)`: lower-case hexadecimal rendering. -/
def hexStr (n : Nat) : String := String.mk (Nat.toDigits 16 n)

/-- The header block assembled by `HttpResponse::writeHeaders`: status
line, one line per header (in `QMap` key order), one `Set-Cookie` line
per cookie, then the empty line. -/
def headerBlock (st : HttpResponseState) : String :=
  "HTTP/1.1 " ++ toString st.statusCode ++ " " ++ st.statusText ++ "\r\n"
    ++ String.join (st.headers.map (fun p => p.1 ++ ": " ++ p.2 ++ "\r\n"))
    ++ String.join (st.cookies.map (fun p => "Set-Cookie: " ++ p.2 ++ "\r\n"))
    ++ "\r\n"

/-- `HttpResponse::writeHeaders`: emit the header block and mark the
headers as sent. -/
def writeHeaders (st : HttpResponseState) : HttpResponseState :=
  { st with output := st.output ++ [headerBlock st], sentHeaders := true }

/-- The value of `headers.value("Connection", headers.value("connection"))`
read by `HttpResponse::write` when deciding the framing mode. -/
def respConnectionValue (st : HttpResponseState) : String :=
  mapValue st.headers "Connection" (mapValue st.headers "connection" "")

/-- Whether the response object currently carries a `Connection: close`
header (under either capitalization of the key), compared
case-insensitively — the condition `connectionClose` computed by
`HttpResponse::write`. -/
def respCarriesClose (st : HttpResponseState) : Bool :=
  ciEq (respConnectionValue st) "close"

/-- The body of `HttpResponse::write(data, lastPart)` after its
`Q_ASSERT(sentLastPart==false)` guard: decide the framing mode and emit
the header block on the first call, then emit the body bytes (chunk
framed in chunked mode), then on the last part emit the chunked
terminator and record that the last part was sent. -/
def writeGo (st : HttpResponseState) (data : String) (lastPart : Bool) :
    HttpResponseState :=
  let st1 :=
    if st.sentHeaders = false then
      let st' :=
        if lastPart then
          { st with headers :=
              mapInsert st.headers "Content-Length" (toString data.length) }
        else
          if respCarriesClose st = false then
            { st with headers := mapInsert st.headers "Transfer-Encoding" "chunked",
                      chunkedMode := true }
          else
            st
      writeHeaders st'
    else
      st
  let st2 :=
    if 0 < data.length then
      if st1.chunkedMode then
        if 0 < data.length then
          { st1 with output :=
              st1.output ++ [hexStr data.length, "\r\n", data, "\r\n"] }
        else
          st1
      else
        { st1 with output := st1.output ++ [data] }
    else
      st1
  if lastPart then
    let st3 :=
      if st2.chunkedMode then
        { st2 with output := st2.output ++ ["0\r\n\r\n"] }
      else
        st2
    { st3 with sentLastPart := true }
  else
    st2

/-- `HttpResponse::write` with the `Q_ASSERT(sentLastPart==false)`
modelled as refusal. -/
def HttpResponse.write (st : HttpResponseState) (data : String)
    (lastPart : Bool) : Option HttpResponseState :=
  if st.sentLastPart then none else some (writeGo st data lastPart)

/-- `HttpResponse::setStatus(statusCode, description)` — note the
source has no `Q_ASSERT(sentHeaders==false)` here, so the mutation is
always applied. -/
def HttpResponse.setStatus (st : HttpResponseState) (code : Nat)
    (text : String) : HttpResponseState :=
  { st with statusCode := code, statusText := text }

/-- `HttpResponse::setHeader(name, value)` with the
`Q_ASSERT(sentHeaders==false)` modelled as refusal. -/
def HttpResponse.setHeaderOp (st : HttpResponseState) (name value : String) :
    Option HttpResponseState :=
  if st.sentHeaders then none
  else some { st with headers := mapInsert st.headers name value }

/-- An `HttpCookie`, abstracted to its name and its serialized form
(`HttpCookie::toByteArray`). -/
structure HttpCookie where
  name : String
  serialized : String
  deriving Repr, DecidableEq

/-- `HttpResponse::setCookie(cookie)` with the
`Q_ASSERT(sentHeaders==false)` modelled as refusal; cookies with an
empty name are ignored. -/
def HttpResponse.setCookieOp (st : HttpResponseState) (c : HttpCookie) :
    Option HttpResponseState :=
  if st.sentHeaders then none
  else some (if c.name = "" then st
             else { st with cookies := mapInsert st.cookies c.name c.serialized })

/-!
## The connection handler (`httpconnectionhandler.cpp`)

`HttpConnectionHandler::read` drives: parse, dispatch on the parser
status, build the response (pre-setting `Connection: close`), invoke
the application handler inside `try/catch`, finalize the framing, and
decide keep-alive vs close.  The request parser is an external
collaborator; a parsed request is abstracted by the accessor values the
connection handler reads from it: the HTTP version literal
(`getVersion()`) and the value of `getHeader("Connection")` (empty when
the header is absent).
-/

/-- A parsed request, abstracted to the accessors used by
`HttpConnectionHandler::read`. -/
structure HttpRequest where
  version : String
  connectionHeader : String
  deriving Repr, DecidableEq

/-- The parser status enum (`HttpRequest::RequestStatus`). -/
inductive ParserStatus where
  | waitForRequestLine
  | waitForHeaders
  | waitForBody
  | complete
  | abort
  | wrongHeaders
  deriving Repr, DecidableEq

/-- The application request handler: it receives the response object
and returns the mutated response together with a flag telling whether
it raised an exception (which `read` catches). -/
abbrev Handler := HttpResponseState → HttpResponseState × Bool

/-- The initial keep-alive decision and response construction performed
by `HttpConnectionHandler::read` when the parser reports `complete`:
`closeConnection` is true when the request carries `Connection: close`
(case-insensitive) or, failing that, when the request version is
`HTTP/1.0` (case-insensitive); in either close case the header
`Connection: close` is set on the fresh response. -/
def prepareResponse (req : HttpRequest) : Bool × HttpResponseState :=
  if ciEq req.connectionHeader "close" then
    (true, { freshResponse with
               headers := mapInsert freshResponse.headers "Connection" "close" })
  else if ciEq req.version "HTTP/1.0" then
    (true, { freshResponse with
               headers := mapInsert freshResponse.headers "Connection" "close" })
  else
    (false, freshResponse)

/-- The keep-alive revision performed after the handler returns: a
previously chosen close sticks; otherwise close when the response
carries `Connection: close` (value compared case-insensitively), or
when it has neither a `Content-Length` header nor a case-insensitive
`Transfer-Encoding: chunked` header. -/
def reviseCloseConnection (closeConnection : Bool) (hs : StrMap) : Bool :=
  if closeConnection then true
  else if ciEq (mapValue hs "Connection" "") "close" = true then true
  else if mapContains hs "Content-Length" = true then false
  else if ciEq (mapValue hs "Transfer-Encoding" "") "chunked" = true then false
  else true

/-- Outcome of processing one `complete` request: the final response
state, the final close decision, and whether the read timer was
restarted for a further request on the same connection. -/
structure CompleteOutcome where
  response : HttpResponseState
  closeConnection : Bool
  timerRestarted : Bool
  deriving Repr, DecidableEq

/-- The `complete` branch of `HttpConnectionHandler::read`: prepare the
response, invoke the handler under `try/catch` (the raised flag is
swallowed), write an empty last part if the handler did not finish the
framing, then revise the keep-alive decision; the read timer is
restarted exactly when the connection is kept alive. -/
def processCompleteRequest (req : HttpRequest) (handler : Handler) :
    CompleteOutcome :=
  let p := prepareResponse req
  let served := (handler p.2).1
  let finalResp := if served.sentLastPart then served else writeGo served "" true
  let close := reviseCloseConnection p.1 finalResp.headers
  { response := finalResp, closeConnection := close, timerRestarted := !close }

/-- Observable effects of one dispatch step of
`HttpConnectionHandler::read` (after the parse loop) or of
`HttpConnectionHandler::readTimeout`.  `directWrites` are the bytes the
connection handler itself writes to the socket (the canonical error
literals); response bytes travel through the response's `output`. -/
structure ReadOutcome where
  directWrites : List String
  handlerInvoked : Bool
  response : Option HttpResponseState
  closeConnection : Bool
  timerRestarted : Bool
  drained : Bool
  disconnected : Bool
  requestCleared : Bool
  deriving Repr, DecidableEq

/-- The dispatch on the parser status inside
`HttpConnectionHandler::read`: `wrongHeaders` and `abort` write their
canonical error literal, drain, disconnect and discard the request
without invoking the handler; `complete` runs
`processCompleteRequest`; the remaining statuses leave the loop waiting
for more bytes. -/
def readStep (status : ParserStatus) (req : HttpRequest) (handler : Handler)
    (err : Nat × String) : ReadOutcome :=
  match status with
  | .wrongHeaders =>
      { directWrites := ["HTTP/1.1 " ++ toString err.1
          ++ "\r\nConnection: close\r\n\r\n" ++ err.2 ++ "\r\n"],
        handlerInvoked := false, response := none, closeConnection := true,
        timerRestarted := false, drained := true, disconnected := true,
        requestCleared := true }
  | .abort =>
      { directWrites := ["HTTP/1.1 413 entity too large\r\nConnection: close\r\n\r\n413 Entity too large\r\n"],
        handlerInvoked := false, response := none, closeConnection := true,
        timerRestarted := false, drained := true, disconnected := true,
        requestCleared := true }
  | .complete =>
      let out := processCompleteRequest req handler
      { directWrites := [], handlerInvoked := true,
        response := some out.response, closeConnection := out.closeConnection,
        timerRestarted := out.timerRestarted, drained := out.closeConnection,
        disconnected := out.closeConnection, requestCleared := true }
  | _ =>
      { directWrites := [], handlerInvoked := false, response := none,
        closeConnection := false, timerRestarted := false, drained := false,
        disconnected := false, requestCleared := false }

/-- `HttpConnectionHandler::readTimeout`: the 408 response is
deliberately suppressed (commented out in the source); the handler
drains pending bytes, disconnects, and discards the in-progress
request. -/
def readTimeoutStep : ReadOutcome :=
  { directWrites := [], handlerInvoked := false, response := none,
    closeConnection := true, timerRestarted := false, drained := true,
    disconnected := true, requestCleared := true }

/-!
## Write scripts

A handler's interaction with the response body is a script of
`write(data, last)` calls.  `runWrites` plays a script; the
`Q_ASSERT(sentLastPart==false)` guard is modelled by stopping the run
(refusal) at the first violating call.  `finalize` is the connection
handler's trailing `write(empty, last=true)` when the handler did not
send the last part itself.
-/

/-- Play a script of `write` calls against a response state. -/
def runWrites (st : HttpResponseState) : List (String × Bool) → HttpResponseState
  | [] => st
  | (d, l) :: rest =>
      if st.sentLastPart then st else runWrites (writeGo st d l) rest

/-- The connection handler's finalization: write an empty last part if
the last part has not been sent yet. -/
def finalize (st : HttpResponseState) : HttpResponseState :=
  if st.sentLastPart then st else writeGo st "" true

/-- One chunk frame: `hex(length)\r\n`, the data, `\r\n`; nothing for
empty data. -/
def chunkFrame (d : String) : List String :=
  if 0 < d.length then [hexStr d.length, "\r\n", d, "\r\n"] else []

/-- The chunk frames produced by a script in chunked mode (the script
is cut off after its first `last=true` element). -/
def chunkFrames : List (String × Bool) → List String
  | [] => []
  | (d, l) :: rest => chunkFrame d ++ (if l then [] else chunkFrames rest)

/-- One raw body emission: the data itself, nothing for empty data. -/
def rawFrame (d : String) : List String :=
  if 0 < d.length then [d] else []

/-- The raw body chunks produced by a script outside chunked mode. -/
def rawFrames : List (String × Bool) → List String
  | [] => []
  | (d, l) :: rest => rawFrame d ++ (if l then [] else rawFrames rest)

/-- The full response run: headers pre-populated to `hdrs`, the
handler's write script, then the connection handler's finalization. -/
def responseRun (hdrs : StrMap) (script : List (String × Bool)) :
    HttpResponseState :=
  finalize (runWrites (mkResponse hdrs) script)

/-- The body chunks on the wire: everything after the header block
(which is always the first chunk of a run that emitted anything). -/
def bodyChunks (hdrs : StrMap) (script : List (String × Bool)) : List String :=
  (responseRun hdrs script).output.drop 1

/-!
## Concrete inputs used by counterexamples and witnesses
-/

/-- A plain keep-alive HTTP/1.1 request without a `Connection` header. -/
def demoRequest : HttpRequest := { version := "HTTP/1.1", connectionHeader := "" }

/-- An HTTP/1.0 request without a `Connection` header. -/
def http10Request : HttpRequest := { version := "HTTP/1.0", connectionHeader := "" }

/-- A handler that raises an exception immediately, without touching
the response. -/
def throwingHandler : Handler := fun r => (r, true)

/-- A response observed right after its first (non-last) write on a
keep-alive connection: headers sent, chunked mode active. -/
def postHeaderSt : HttpResponseState := writeGo freshResponse "x" false

/-- The response of spec scenario 3: an HTTP/1.1 keep-alive response
whose handler calls `write("foo", false)` then `write("bar", true)`. -/
def demoChunkedFinal : HttpResponseState :=
  writeGo (writeGo (prepareResponse demoRequest).2 "foo" false) "bar" true

/-- The response produced when a handler overrides the pre-set
`Connection: close` of an HTTP/1.0 request with `keep-alive` before the
first write. -/
def overriddenResponse : HttpResponseState :=
  { (prepareResponse http10Request).2 with
      headers := mapInsert (prepareResponse http10Request).2.headers
                   "Connection" "keep-alive" }

/-- The response produced by a handler that sets `Content-Length: 5`
itself and then streams: `write("ab", false)` followed by the
connection handler's finalization. -/
def mixedFramingSt : HttpResponseState :=
  responseRun [("Content-Length", "5")] [("ab", false), ("", true)]

example : (writeGo freshResponse "hello" true).output
    = ["HTTP/1.1 200 OK\r\nContent-Length: 5\r\n\r\n", "hello"] := by decide

example : (writeGo freshResponse "foo" false).chunkedMode = true := by decide

example : bodyChunks [] [("foo", false), ("bar", true)]
    = ["3", "\r\n", "foo", "\r\n", "3", "\r\n", "bar", "\r\n", "0\r\n\r\n"] := by
  decide

example : bodyChunks [("Connection", "close")] [("a", false), ("bc", true)]
    = ["a", "bc"] := by decide

/-!
## Map lemmas
-/

theorem ciEq_refl (s : String) : ciEq s s = true := by
  simp [ciEq]

theorem mapValue_insert_self (l : StrMap) (k v d : String) :
    mapValue (mapInsert l k v) k d = v := by
  induction l with
  | nil => simp [mapInsert, mapValue]
  | cons p rest ih =>
      obtain ⟨k', v'⟩ := p
      by_cases h1 : k = k'
      · simp [mapInsert, mapValue, h1]
      · by_cases h2 : strLt k k' = true <;> simp [mapInsert, mapValue, h1, h2, ih]

theorem mapValue_insert_ne (l : StrMap) (k v j d : String) (h : j ≠ k) :
    mapValue (mapInsert l k v) j d = mapValue l j d := by
  induction l with
  | nil => simp [mapInsert, mapValue, h]
  | cons p rest ih =>
      obtain ⟨k', v'⟩ := p
      simp only [mapInsert]
      by_cases h1 : k = k'
      · rw [if_pos h1]; subst h1
        simp [mapValue, h]
      · rw [if_neg h1]
        by_cases h2 : strLt k k' = true
        · rw [if_pos h2]
          simp [mapValue, h]
        · rw [if_neg h2]
          by_cases h3 : j = k' <;> simp [mapValue, h3, ih]

theorem mapContains_insert_self (l : StrMap) (k v : String) :
    mapContains (mapInsert l k v) k = true := by
  induction l with
  | nil => simp [mapInsert, mapContains]
  | cons p rest ih =>
      obtain ⟨k', v'⟩ := p
      by_cases h1 : k = k'
      · simp [mapInsert, mapContains, h1]
      · by_cases h2 : strLt k k' = true <;> simp [mapInsert, mapContains, h1, h2, ih]

theorem mapContains_insert_ne (l : StrMap) (k v j : String) (h : j ≠ k) :
    mapContains (mapInsert l k v) j = mapContains l j := by
  induction l with
  | nil => simp [mapInsert, mapContains, h]
  | cons p rest ih =>
      obtain ⟨k', v'⟩ := p
      by_cases h1 : k = k'
      · subst h1; simp [mapInsert, mapContains, h]
      · by_cases h2 : strLt k k' = true <;> by_cases h3 : j = k' <;>
          simp [mapInsert, mapContains, h, h1, h2, h3, ih]

theorem mapContains_eq_false (l : StrMap) (k : String)
    (h : ∀ p ∈ l, p.1 ≠ k) : mapContains l k = false := by
  induction l with
  | nil => simp [mapContains]
  | cons p rest ih =>
      obtain ⟨k', v'⟩ := p
      have hk : k' ≠ k := h (k', v') (by simp)
      simp only [mapContains]
      rw [if_neg (fun he : k = k' => hk he.symm)]
      exact ih (fun q hq => h q (List.mem_cons_of_mem _ hq))

theorem mapValue_eq_default (l : StrMap) (k d : String)
    (h : ∀ p ∈ l, p.1 ≠ k) : mapValue l k d = d := by
  induction l with
  | nil => simp [mapValue]
  | cons p rest ih =>
      obtain ⟨k', v'⟩ := p
      have hk : k' ≠ k := h (k', v') (by simp)
      simp only [mapValue]
      rw [if_neg (fun he : k = k' => hk he.symm)]
      exact ih (fun q hq => h q (List.mem_cons_of_mem _ hq))

theorem mapValue_of_contains_eq_false (l : StrMap) (k d : String)
    (h : mapContains l k = false) : mapValue l k d = d := by
  induction l with
  | nil => simp [mapValue]
  | cons p rest ih =>
      obtain ⟨k', v'⟩ := p
      by_cases h1 : k = k' <;> simp_all [mapContains, mapValue]

/-!
## `writeGo` unfolding lemmas
-/

theorem writeGo_chunked_nonlast (st : HttpResponseState) (d : String)
    (h1 : st.sentHeaders = true) (h2 : st.chunkedMode = true) :
    writeGo st d false = { st with output := st.output ++ chunkFrame d } := by
  obtain ⟨sc, stx, hs, cks, sh, slp, cm, out⟩ := st
  simp only at h1 h2
  subst h1; subst h2
  unfold writeGo chunkFrame
  by_cases hd : 0 < d.length <;> simp [hd]

theorem writeGo_chunked_last (st : HttpResponseState) (d : String)
    (h1 : st.sentHeaders = true) (h2 : st.chunkedMode = true) :
    writeGo st d true
      = { st with output := st.output ++ chunkFrame d ++ ["0\r\n\r\n"],
                  sentLastPart := true } := by
  obtain ⟨sc, stx, hs, cks, sh, slp, cm, out⟩ := st
  simp only at h1 h2
  subst h1; subst h2
  unfold writeGo chunkFrame
  by_cases hd : 0 < d.length <;> simp [hd]

theorem writeGo_raw_nonlast (st : HttpResponseState) (d : String)
    (h1 : st.sentHeaders = true) (h2 : st.chunkedMode = false) :
    writeGo st d false = { st with output := st.output ++ rawFrame d } := by
  obtain ⟨sc, stx, hs, cks, sh, slp, cm, out⟩ := st
  simp only at h1 h2
  subst h1; subst h2
  unfold writeGo rawFrame
  by_cases hd : 0 < d.length <;> simp [hd]

theorem writeGo_raw_last (st : HttpResponseState) (d : String)
    (h1 : st.sentHeaders = true) (h2 : st.chunkedMode = false) :
    writeGo st d true
      = { st with output := st.output ++ rawFrame d, sentLastPart := true } := by
  obtain ⟨sc, stx, hs, cks, sh, slp, cm, out⟩ := st
  simp only at h1 h2
  subst h1; subst h2
  unfold writeGo rawFrame
  by_cases hd : 0 < d.length <;> simp [hd]

theorem writeGo_first_last (st : HttpResponseState) (d : String)
    (h : st.sentHeaders = false) (hc : st.chunkedMode = false) :
    writeGo st d true
      = { st with
            headers := mapInsert st.headers "Content-Length" (toString d.length),
            sentHeaders := true, sentLastPart := true,
            output := st.output
              ++ [headerBlock { st with headers := mapInsert st.headers "Content-Length" (toString d.length) }]
              ++ rawFrame d } := by
  obtain ⟨sc, stx, hs, cks, sh, slp, cm, out⟩ := st
  simp only at h hc
  subst h; subst hc
  unfold writeGo writeHeaders rawFrame
  by_cases hd : 0 < d.length <;> simp [hd]

theorem writeGo_first_nonlast_close (st : HttpResponseState) (d : String)
    (h : st.sentHeaders = false) (hc : st.chunkedMode = false)
    (hcc : respCarriesClose st = true) :
    writeGo st d false
      = { st with sentHeaders := true,
                  output := st.output ++ [headerBlock st] ++ rawFrame d } := by
  obtain ⟨sc, stx, hs, cks, sh, slp, cm, out⟩ := st
  simp only at h hc
  subst h; subst hc
  unfold writeGo writeHeaders rawFrame
  by_cases hd : 0 < d.length <;> simp [hcc, hd]

theorem writeGo_first_nonlast_keep (st : HttpResponseState) (d : String)
    (h : st.sentHeaders = false) (hcc : respCarriesClose st = false) :
    writeGo st d false
      = { st with
            headers := mapInsert st.headers "Transfer-Encoding" "chunked",
            chunkedMode := true, sentHeaders := true,
            output := st.output
              ++ [headerBlock { st with headers := mapInsert st.headers "Transfer-Encoding" "chunked" }]
              ++ chunkFrame d } := by
  obtain ⟨sc, stx, hs, cks, sh, slp, cm, out⟩ := st
  simp only at h
  subst h
  unfold writeGo writeHeaders chunkFrame
  by_cases hd : 0 < d.length <;> simp [hcc, hd, headerBlock]

theorem writeGo_last_sent (st : HttpResponseState) (d : String) :
    (writeGo st d true).sentLastPart = true := by
  unfold writeGo writeHeaders
  by_cases h1 : st.sentHeaders = false <;> by_cases h2 : 0 < d.length <;>
    simp [h1, h2]

/-!
## Script-run lemmas
-/

theorem runWrites_stopped (st : HttpResponseState)
    (ws : List (String × Bool)) (h : st.sentLastPart = true) :
    runWrites st ws = st := by
  cases ws with
  | nil => rfl
  | cons p rest => obtain ⟨d, l⟩ := p; simp [runWrites, h]

theorem runWrites_chunked (ws : List (String × Bool)) :
    ∀ st : HttpResponseState, st.sentHeaders = true → st.chunkedMode = true →
    st.sentLastPart = false →
    finalize (runWrites st ws)
      = { st with output := st.output ++ chunkFrames ws ++ ["0\r\n\r\n"],
                  sentLastPart := true } := by
  induction ws with
  | nil =>
      intro st h1 h2 h3
      show finalize (runWrites st []) = _
      unfold runWrites finalize
      rw [if_neg (by simp [h3]), writeGo_chunked_last st "" h1 h2]
      simp [chunkFrames, chunkFrame]
  | cons p rest ih =>
      intro st h1 h2 h3
      obtain ⟨d, l⟩ := p
      have e1 : runWrites st ((d, l) :: rest)
          = runWrites (writeGo st d l) rest := by
        simp [runWrites, h3]
      cases l with
      | true =>
          rw [e1, writeGo_chunked_last st d h1 h2,
              runWrites_stopped _ rest (by simp)]
          simp [finalize, chunkFrames]
      | false =>
          rw [e1, writeGo_chunked_nonlast st d h1 h2,
              ih _ (by simp [h1]) (by simp [h2]) (by simp [h3])]
          simp [chunkFrames, List.append_assoc]

theorem runWrites_raw (ws : List (String × Bool)) :
    ∀ st : HttpResponseState, st.sentHeaders = true → st.chunkedMode = false →
    st.sentLastPart = false →
    finalize (runWrites st ws)
      = { st with output := st.output ++ rawFrames ws,
                  sentLastPart := true } := by
  induction ws with
  | nil =>
      intro st h1 h2 h3
      show finalize (runWrites st []) = _
      unfold runWrites finalize
      rw [if_neg (by simp [h3]), writeGo_raw_last st "" h1 h2]
      simp [rawFrames, rawFrame]
  | cons p rest ih =>
      intro st h1 h2 h3
      obtain ⟨d, l⟩ := p
      have e1 : runWrites st ((d, l) :: rest)
          = runWrites (writeGo st d l) rest := by
        simp [runWrites, h3]
      cases l with
      | true =>
          rw [e1, writeGo_raw_last st d h1 h2,
              runWrites_stopped _ rest (by simp)]
          simp [finalize, rawFrames]
      | false =>
          rw [e1, writeGo_raw_nonlast st d h1 h2,
              ih _ (by simp [h1]) (by simp [h2]) (by simp [h3])]
          simp [rawFrames, List.append_assoc]

/-!
## Claim theorems
-/

/-- C2: for every request that reaches parser status `complete`, the
initial keep-alive decision is: close when the request carries
`Connection: close` (case-insensitive), else close when the request
version is `HTTP/1.0` (case-insensitive), else keep-alive; whenever
close is chosen, `Connection: close` is set on the response object
(which is subsequently passed to the request handler by
`processCompleteRequest`). -/
theorem initial_keepalive_decision (req : HttpRequest) :
    (prepareResponse req).1
      = (ciEq req.connectionHeader "close" || ciEq req.version "HTTP/1.0")
    ∧ mapValue (prepareResponse req).2.headers "Connection" ""
        = (if (prepareResponse req).1 = true then "close" else "")
    ∧ (prepareResponse req).2.sentHeaders = false := by
  by_cases hA : ciEq req.connectionHeader "close" = true <;>
    by_cases hB : ciEq req.version "HTTP/1.0" = true <;>
    simp [prepareResponse, hA, hB, freshResponse, mapInsert, mapValue]

/-- C3: after the handler completes, a connection whose initial
decision was keep-alive is revised to close exactly when the response
carries `Connection: close` (value compared case-insensitively) or has
neither a `Content-Length` header nor a `Transfer-Encoding: chunked`
header; the read timer is rearmed exactly when the connection stays
keep-alive. -/
theorem revise_keepalive_decision (hs : StrMap) (req : HttpRequest)
    (handler : Handler) :
    reviseCloseConnection false hs
      = (ciEq (mapValue hs "Connection" "") "close"
         || (!mapContains hs "Content-Length"
             && !ciEq (mapValue hs "Transfer-Encoding" "") "chunked"))
    ∧ (processCompleteRequest req handler).timerRestarted
        = !(processCompleteRequest req handler).closeConnection := by
  constructor
  · by_cases h1 : ciEq (mapValue hs "Connection" "") "close" = true <;>
      by_cases h2 : mapContains hs "Content-Length" = true <;>
      by_cases h3 : ciEq (mapValue hs "Transfer-Encoding" "") "chunked" = true <;>
      simp [reviseCloseConnection, h1, h2, h3]
  · rfl

/-- C6: when the parser reports `abort`, the connection handler writes
exactly the canonical 413 literal, drains, disconnects, discards the
request, and never invokes the application handler. -/
theorem abort_entity_too_large (req : HttpRequest) (handler : Handler)
    (err : Nat × String) :
    (readStep .abort req handler err).directWrites
      = ["HTTP/1.1 413 entity too large\r\nConnection: close\r\n\r\n413 Entity too large\r\n"]
    ∧ (readStep .abort req handler err).handlerInvoked = false
    ∧ (readStep .abort req handler err).response = none
    ∧ (readStep .abort req handler err).drained = true
    ∧ (readStep .abort req handler err).disconnected = true
    ∧ (readStep .abort req handler err).requestCleared = true :=
  ⟨rfl, rfl, rfl, rfl, rfl, rfl⟩

/-- C8: when the read timeout fires, the connection handler writes no
response bytes at all, drains pending outgoing bytes, disconnects, and
discards the in-progress request. -/
theorem read_timeout_silent :
    readTimeoutStep.directWrites = []
    ∧ readTimeoutStep.handlerInvoked = false
    ∧ readTimeoutStep.response = none
    ∧ readTimeoutStep.drained = true
    ∧ readTimeoutStep.disconnected = true
    ∧ readTimeoutStep.requestCleared = true :=
  ⟨rfl, rfl, rfl, rfl, rfl, rfl⟩

/-- C9 (amended): after the header block has been emitted, `setHeader`
and `setCookie` refuse the call (their `Q_ASSERT(sentHeaders==false)`
fails), but `setStatus` carries no such guard and always applies its
mutation. -/
theorem setters_after_headers (st : HttpResponseState) (n v : String)
    (c : HttpCookie) (code : Nat) (txt : String)
    (h : st.sentHeaders = true) :
    HttpResponse.setHeaderOp st n v = none
    ∧ HttpResponse.setCookieOp st c = none
    ∧ (HttpResponse.setStatus st code txt).statusCode = code
    ∧ (HttpResponse.setStatus st code txt).statusText = txt
    ∧ (HttpResponse.setStatus st code txt).sentHeaders = true := by
  refine ⟨?_, ?_, rfl, rfl, ?_⟩ <;>
    simp [HttpResponse.setHeaderOp, HttpResponse.setCookieOp,
          HttpResponse.setStatus, h]

/-- Witness for `setters_after_headers` at a concrete
post-header-emission state. -/
theorem setters_after_headers_witness :
    postHeaderSt.sentHeaders = true
    ∧ (HttpResponse.setHeaderOp postHeaderSt "X-Test" "1" = none
       ∧ HttpResponse.setCookieOp postHeaderSt ⟨"sid", "sid=1"⟩ = none
       ∧ (HttpResponse.setStatus postHeaderSt 500 "Error").statusCode = 500
       ∧ (HttpResponse.setStatus postHeaderSt 500 "Error").statusText = "Error"
       ∧ (HttpResponse.setStatus postHeaderSt 500 "Error").sentHeaders = true) :=
  ⟨by decide,
   setters_after_headers postHeaderSt "X-Test" "1" ⟨"sid", "sid=1"⟩ 500 "Error"
     (by decide)⟩

/-- C9 counterexample: `setStatus` called after the header block was
emitted is accepted (the state mutates), not refused — the source's
`HttpResponse::setStatus` has no `Q_ASSERT(sentHeaders==false)`. -/
theorem setstatus_after_headers_cex :
    postHeaderSt.sentHeaders = true
    ∧ postHeaderSt.statusCode = 200
    ∧ (HttpResponse.setStatus postHeaderSt 500 "Error").statusCode = 500
    ∧ HttpResponse.setStatus postHeaderSt 500 "Error" ≠ postHeaderSt := by
  decide

/-- C10: in chunked mode, `write(empty, last=false)` emits nothing (the
state is unchanged, so no zero-length chunk appears); `write(empty,
last=true)` emits exactly the terminator `0\r\n\r\n`; and no non-last
write ever marks the last part sent or appends anything but a plain
chunk frame. -/
theorem chunked_empty_write (st : HttpResponseState) (data : String)
    (h1 : st.sentHeaders = true) (h2 : st.chunkedMode = true) :
    writeGo st "" false = st
    ∧ (writeGo st "" true).output = st.output ++ ["0\r\n\r\n"]
    ∧ (writeGo st "" true).sentLastPart = true
    ∧ (writeGo st data false).sentLastPart = st.sentLastPart
    ∧ (writeGo st data false).output = st.output ++ chunkFrame data := by
  refine ⟨?_, ?_, writeGo_last_sent st "", ?_, ?_⟩
  · rw [writeGo_chunked_nonlast st "" h1 h2]; simp [chunkFrame]
  · rw [writeGo_chunked_last st "" h1 h2]; simp [chunkFrame]
  · rw [writeGo_chunked_nonlast st data h1 h2]
  · rw [writeGo_chunked_nonlast st data h1 h2]

/-- Witness for `chunked_empty_write` at a concrete chunked-mode
state. -/
theorem chunked_empty_write_witness :
    postHeaderSt.sentHeaders = true ∧ postHeaderSt.chunkedMode = true
    ∧ (writeGo postHeaderSt "" false = postHeaderSt
       ∧ (writeGo postHeaderSt "" true).output
           = postHeaderSt.output ++ ["0\r\n\r\n"]
       ∧ (writeGo postHeaderSt "" true).sentLastPart = true
       ∧ (writeGo postHeaderSt "zz" false).sentLastPart
           = postHeaderSt.sentLastPart
       ∧ (writeGo postHeaderSt "zz" false).output
           = postHeaderSt.output ++ chunkFrame "zz") :=
  ⟨by decide, by decide,
   chunked_empty_write postHeaderSt "zz" (by decide) (by decide)⟩

/-- C4: in chunked mode every write of non-empty data emits exactly
`hex(length)\r\n`, the data, `\r\n`, plus the terminator `0\r\n\r\n`
when `last=true` (which also marks the last part sent); consequently
the handler of spec scenario 3 (`write("foo", false)`;
`write("bar", true)` on an HTTP/1.1 keep-alive response) puts exactly
`3\r\nfoo\r\n3\r\nbar\r\n0\r\n\r\n` on the wire after the header block,
under a `Transfer-Encoding: chunked` header. -/
theorem chunked_write_framing (st : HttpResponseState) (data : String)
    (last : Bool) (h1 : st.sentHeaders = true) (h2 : st.chunkedMode = true)
    (h3 : 0 < data.length) :
    (writeGo st data last).output
      = st.output ++ [hexStr data.length, "\r\n", data, "\r\n"]
          ++ (if last then ["0\r\n\r\n"] else [])
    ∧ (writeGo st data true).sentLastPart = true
    ∧ String.join (demoChunkedFinal.output.drop 1)
        = "3\r\nfoo\r\n3\r\nbar\r\n0\r\n\r\n"
    ∧ mapValue demoChunkedFinal.headers "Transfer-Encoding" "" = "chunked" := by
  refine ⟨?_, writeGo_last_sent st data, by decide, by decide⟩
  cases last with
  | true => rw [writeGo_chunked_last st data h1 h2]; simp [chunkFrame, h3]
  | false => rw [writeGo_chunked_nonlast st data h1 h2]; simp [chunkFrame, h3]

/-- Witness for `chunked_write_framing` at a concrete chunked-mode
state and non-empty data. -/
theorem chunked_write_framing_witness :
    postHeaderSt.sentHeaders = true ∧ postHeaderSt.chunkedMode = true
    ∧ 0 < "ab".length
    ∧ ((writeGo postHeaderSt "ab" false).output
         = postHeaderSt.output ++ [hexStr "ab".length, "\r\n", "ab", "\r\n"]
             ++ (if false then ["0\r\n\r\n"] else [])
       ∧ (writeGo postHeaderSt "ab" true).sentLastPart = true
       ∧ String.join (demoChunkedFinal.output.drop 1)
           = "3\r\nfoo\r\n3\r\nbar\r\n0\r\n\r\n"
       ∧ mapValue demoChunkedFinal.headers "Transfer-Encoding" "" = "chunked") :=
  ⟨by decide, by decide, by decide,
   chunked_write_framing postHeaderSt "ab" false (by decide) (by decide)
     (by decide)⟩

/-- C7 (amended): an exception raised by the handler is swallowed at
the dispatch boundary — the outcome is identical to a normal return of
the same response mutation; the framing is always completed (the last
part ends up sent); and the close decision then follows the ordinary
keep-alive revision, not an unconditional close. -/
theorem handler_exception_finalized (req : HttpRequest)
    (f : HttpResponseState → HttpResponseState) :
    processCompleteRequest req (fun r => (f r, true))
      = processCompleteRequest req (fun r => (f r, false))
    ∧ (processCompleteRequest req (fun r => (f r, true))).response.sentLastPart
        = true
    ∧ (processCompleteRequest req (fun r => (f r, true))).closeConnection
        = reviseCloseConnection (prepareResponse req).1
            (processCompleteRequest req (fun r => (f r, true))).response.headers := by
  refine ⟨rfl, ?_, rfl⟩
  unfold processCompleteRequest
  by_cases h : (f (prepareResponse req).2).sentLastPart = true
  · simp [h]
  · simp [h, writeGo_last_sent]

/-- C7 counterexample: a handler that raises before writing anything on
a keep-alive HTTP/1.1 connection leaves the connection keep-alive (the
empty finalizing write yields `Content-Length: 0`), with the read timer
rearmed — the connection is reused, not treated as close-connection. -/
theorem handler_exception_keepalive_cex :
    (processCompleteRequest demoRequest throwingHandler).closeConnection = false
    ∧ (processCompleteRequest demoRequest throwingHandler).timerRestarted = true
    ∧ (processCompleteRequest demoRequest throwingHandler).response.sentLastPart
        = true
    ∧ mapValue (processCompleteRequest demoRequest throwingHandler).response.headers
        "Content-Length" "" = "0" := by
  decide

/-- C1 counterexample: the framing decision reads only the *response's*
`Connection` header.  On an HTTP/1.0 request, a handler that overrides
the pre-set `Connection: close` with `keep-alive` (a legal `setHeader`
call while headers are unsent) makes the first non-last write pick
chunked mode with a `Transfer-Encoding: chunked` header — although the
claim requires close-delimited framing with no Transfer-Encoding for
every HTTP/1.0 request. -/
theorem write_framing_cex :
    HttpResponse.setHeaderOp (prepareResponse http10Request).2
        "Connection" "keep-alive" = some overriddenResponse
    ∧ ciEq http10Request.version "HTTP/1.0" = true
    ∧ overriddenResponse.sentHeaders = false
    ∧ (writeGo overriddenResponse "x" false).chunkedMode = true
    ∧ mapValue (writeGo overriddenResponse "x" false).headers
        "Transfer-Encoding" "" = "chunked" := by
  decide

/-- C1 (amended): at the first call to `write` the framing mode is
decided once, from the *response's* state: `last=true` gives
content-length framing with `Content-Length = data.length`; otherwise
close-delimited (headers untouched) exactly when the response carries
`Connection: close`, and chunked (with `Transfer-Encoding: chunked`
added) otherwise.  The connection handler pre-sets the response's
`Connection: close` exactly when the request carries `Connection:
close` or is HTTP/1.0 (both case-insensitive), so the claim's rule
holds unless the handler overrides that header.  The header block is
emitted at this first call. -/
theorem write_first_call_framing (st : HttpResponseState) (data : String)
    (last : Bool) (req : HttpRequest)
    (h : st.sentHeaders = false) (hc : st.chunkedMode = false) :
    (writeGo st data last).sentHeaders = true
    ∧ (last = true →
         mapValue (writeGo st data last).headers "Content-Length" ""
           = toString data.length
         ∧ (writeGo st data last).chunkedMode = false)
    ∧ (last = false → respCarriesClose st = true →
         (writeGo st data last).headers = st.headers
         ∧ (writeGo st data last).chunkedMode = false)
    ∧ (last = false → respCarriesClose st = false →
         mapValue (writeGo st data last).headers "Transfer-Encoding" ""
           = "chunked"
         ∧ (writeGo st data last).chunkedMode = true)
    ∧ respCarriesClose (prepareResponse req).2
        = (ciEq req.connectionHeader "close" || ciEq req.version "HTTP/1.0") := by
  refine ⟨?_, ?_, ?_, ?_, ?_⟩
  · cases last with
    | true => rw [writeGo_first_last st data h hc]
    | false =>
        rcases Bool.eq_false_or_eq_true (respCarriesClose st) with hcc | hcc
        · rw [writeGo_first_nonlast_close st data h hc hcc]
        · rw [writeGo_first_nonlast_keep st data h hcc]
  · intro hl; subst hl
    rw [writeGo_first_last st data h hc]
    exact ⟨mapValue_insert_self _ _ _ _, hc⟩
  · intro hl hcc; subst hl
    rw [writeGo_first_nonlast_close st data h hc hcc]
    exact ⟨rfl, hc⟩
  · intro hl hcc; subst hl
    rw [writeGo_first_nonlast_keep st data h hcc]
    exact ⟨mapValue_insert_self _ _ _ _, rfl⟩
  · have e1 : ciEq "close" "close" = true := by decide
    have e2 : ciEq "" "close" = false := by decide
    by_cases hA : ciEq req.connectionHeader "close" = true <;>
      by_cases hB : ciEq req.version "HTTP/1.0" = true <;>
      simp [prepareResponse, respCarriesClose, respConnectionValue,
            freshResponse, mapInsert, mapValue, hA, hB, e1, e2]

/-- Witness for `write_first_call_framing` at a fresh response and a
single-call body. -/
theorem write_first_call_framing_witness :
    freshResponse.sentHeaders = false ∧ freshResponse.chunkedMode = false
    ∧ ((writeGo freshResponse "hi" true).sentHeaders = true
       ∧ (true = true →
            mapValue (writeGo freshResponse "hi" true).headers
              "Content-Length" "" = toString "hi".length
            ∧ (writeGo freshResponse "hi" true).chunkedMode = false)
       ∧ (true = false → respCarriesClose freshResponse = true →
            (writeGo freshResponse "hi" true).headers = freshResponse.headers
            ∧ (writeGo freshResponse "hi" true).chunkedMode = false)
       ∧ (true = false → respCarriesClose freshResponse = false →
            mapValue (writeGo freshResponse "hi" true).headers
              "Transfer-Encoding" "" = "chunked"
            ∧ (writeGo freshResponse "hi" true).chunkedMode = true)
       ∧ respCarriesClose (prepareResponse demoRequest).2
           = (ciEq demoRequest.connectionHeader "close"
              || ciEq demoRequest.version "HTTP/1.0")) :=
  ⟨by decide, by decide,
   write_first_call_framing freshResponse "hi" true demoRequest
     (by decide) (by decide)⟩

/-- The wire length of a raw body emission equals the data length. -/
theorem join_rawFrame_length (d : String) :
    (String.join (rawFrame d)).length = d.length := by
  unfold rawFrame
  by_cases hd : 0 < d.length
  · simp [hd, String.join]
  · simp [hd, String.join]
    omega

/-- A response with no `Content-Length` header and no chunked
`Transfer-Encoding` value forces the revised decision to close. -/
theorem revise_true_of_no_framing (hs : StrMap)
    (hCL : mapContains hs "Content-Length" = false)
    (hTEv : ciEq (mapValue hs "Transfer-Encoding" "") "chunked" = false) :
    reviseCloseConnection false hs = true := by
  unfold reviseCloseConnection
  by_cases h1 : ciEq (mapValue hs "Connection" "") "close" = true <;>
    simp [h1, hCL, hTEv]

/-- C5 (amended): for a response whose handler-set headers contain
neither `Content-Length` nor `Transfer-Encoding` (under any key
capitalization) — i.e. whenever the framing mode is left to the
implementation — every write script, after the connection handler's
finalization, yields exactly one framing: a `Content-Length: N` header
with a body of exactly `N` bytes and no `Transfer-Encoding`, or a
`Transfer-Encoding: chunked` header with a body of chunk frames ending
in the terminator `0\r\n\r\n` and no `Content-Length`, or neither
header, in which case the keep-alive revision closes the connection
after the body. -/
theorem framing_trichotomy (hdrs : StrMap) (script : List (String × Bool))
    (hh : ∀ p ∈ hdrs, ciEq p.1 "Content-Length" = false
            ∧ ciEq p.1 "Transfer-Encoding" = false) :
    (responseRun hdrs script).sentLastPart = true
    ∧ ¬(mapContains (responseRun hdrs script).headers "Content-Length" = true
        ∧ mapContains (responseRun hdrs script).headers "Transfer-Encoding" = true)
    ∧ (mapContains (responseRun hdrs script).headers "Content-Length" = true →
         mapValue (responseRun hdrs script).headers "Content-Length" ""
           = toString (String.join (bodyChunks hdrs script)).length)
    ∧ (mapContains (responseRun hdrs script).headers "Transfer-Encoding" = true →
         mapValue (responseRun hdrs script).headers "Transfer-Encoding" ""
           = "chunked"
         ∧ bodyChunks hdrs script = chunkFrames script ++ ["0\r\n\r\n"])
    ∧ (mapContains (responseRun hdrs script).headers "Content-Length" = false →
       mapContains (responseRun hdrs script).headers "Transfer-Encoding" = false →
         reviseCloseConnection false (responseRun hdrs script).headers = true) := by
  have hCL : ∀ p ∈ hdrs, p.1 ≠ "Content-Length" := by
    intro p hp he
    have h0 := (hh p hp).1
    rw [he, ciEq_refl] at h0
    exact absurd h0 (by simp)
  have hTE : ∀ p ∈ hdrs, p.1 ≠ "Transfer-Encoding" := by
    intro p hp he
    have h0 := (hh p hp).2
    rw [he, ciEq_refl] at h0
    exact absurd h0 (by simp)
  have hcCL : mapContains hdrs "Content-Length" = false :=
    mapContains_eq_false _ _ hCL
  have hcTE : mapContains hdrs "Transfer-Encoding" = false :=
    mapContains_eq_false _ _ hTE
  have hvTE : mapValue hdrs "Transfer-Encoding" "" = "" :=
    mapValue_eq_default _ _ _ hTE
  have hTECL : ("Transfer-Encoding" : String) ≠ "Content-Length" := by decide
  have hCLTE : ("Content-Length" : String) ≠ "Transfer-Encoding" := by decide
  have hchv : ciEq "" "chunked" = false := by decide
  have hTEc : ∀ v, mapContains (mapInsert hdrs "Content-Length" v)
      "Transfer-Encoding" = false := by
    intro v; rw [mapContains_insert_ne _ _ _ _ hTECL]; exact hcTE
  have hCLf : ∀ v, mapContains (mapInsert hdrs "Transfer-Encoding" v)
      "Content-Length" = false := by
    intro v; rw [mapContains_insert_ne _ _ _ _ hCLTE]; exact hcCL
  rcases script with _ | ⟨⟨d, l⟩, rest⟩
  · -- empty script: the finalization alone runs `write("", last=true)`
    have e1 : responseRun hdrs [] = writeGo (mkResponse hdrs) "" true := rfl
    rw [writeGo_first_last (mkResponse hdrs) "" rfl rfl] at e1
    refine ⟨?_, ?_, ?_, ?_, ?_⟩
    · rw [e1]
    · rw [e1]; dsimp only [mkResponse, freshResponse]
      simp [hTEc]
    · intro _
      simp only [bodyChunks, e1]
      dsimp only [mkResponse, freshResponse]
      rw [mapValue_insert_self]
      simp [rawFrame, String.join]
    · intro hx
      rw [e1] at hx; dsimp only [mkResponse, freshResponse] at hx
      rw [hTEc] at hx
      simp at hx
    · intro hx _
      rw [e1] at hx; dsimp only [mkResponse, freshResponse] at hx
      rw [mapContains_insert_self] at hx
      simp at hx
  · cases l with
    | true =>
        -- first write is the last part: content-length framing
        have e1 : responseRun hdrs ((d, true) :: rest)
            = writeGo (mkResponse hdrs) d true := by
          show finalize (runWrites (writeGo (mkResponse hdrs) d true) rest) = _
          rw [runWrites_stopped _ rest (writeGo_last_sent _ _)]
          unfold finalize
          rw [if_pos (writeGo_last_sent (mkResponse hdrs) d)]
        rw [writeGo_first_last (mkResponse hdrs) d rfl rfl] at e1
        refine ⟨?_, ?_, ?_, ?_, ?_⟩
        · rw [e1]
        · rw [e1]; dsimp only [mkResponse, freshResponse]
          simp [hTEc]
        · intro _
          simp only [bodyChunks, e1]
          dsimp only [mkResponse, freshResponse]
          rw [mapValue_insert_self]
          simp [join_rawFrame_length]
        · intro hx
          rw [e1] at hx; dsimp only [mkResponse, freshResponse] at hx
          rw [hTEc] at hx
          simp at hx
        · intro hx _
          rw [e1] at hx; dsimp only [mkResponse, freshResponse] at hx
          rw [mapContains_insert_self] at hx
          simp at hx
    | false =>
        by_cases hcc : respCarriesClose (mkResponse hdrs) = true
        · -- close-delimited framing: headers untouched, raw body
          have e1 : responseRun hdrs ((d, false) :: rest)
              = { mkResponse hdrs with
                  sentHeaders := true, sentLastPart := true,
                  output := ([headerBlock (mkResponse hdrs)] ++ rawFrame d)
                    ++ rawFrames rest } := by
            show finalize (runWrites (writeGo (mkResponse hdrs) d false) rest) = _
            rw [writeGo_first_nonlast_close (mkResponse hdrs) d rfl rfl hcc]
            exact runWrites_raw rest _ rfl rfl rfl
          refine ⟨?_, ?_, ?_, ?_, ?_⟩
          · rw [e1]
          · rw [e1]; dsimp only [mkResponse, freshResponse]
            simp [hcCL]
          · intro hx
            rw [e1] at hx; dsimp only [mkResponse, freshResponse] at hx
            rw [hcCL] at hx
            simp at hx
          · intro hx
            rw [e1] at hx; dsimp only [mkResponse, freshResponse] at hx
            rw [hcTE] at hx
            simp at hx
          · intro _ _
            rw [e1]; dsimp only [mkResponse, freshResponse]
            exact revise_true_of_no_framing hdrs hcCL (by rw [hvTE]; exact hchv)
        · -- chunked framing
          have hcc' : respCarriesClose (mkResponse hdrs) = false := by
            rcases Bool.eq_false_or_eq_true (respCarriesClose (mkResponse hdrs))
              with hx | hx
            · exact absurd hx hcc
            · exact hx
          have e1 : responseRun hdrs ((d, false) :: rest)
              = { mkResponse (mapInsert hdrs "Transfer-Encoding" "chunked") with
                  chunkedMode := true, sentHeaders := true, sentLastPart := true,
                  output := ([headerBlock (mkResponse (mapInsert hdrs "Transfer-Encoding" "chunked"))] ++ chunkFrame d)
                    ++ chunkFrames rest ++ ["0\r\n\r\n"] } := by
            show finalize (runWrites (writeGo (mkResponse hdrs) d false) rest) = _
            rw [writeGo_first_nonlast_keep (mkResponse hdrs) d rfl hcc']
            exact runWrites_chunked rest _ rfl rfl rfl
          refine ⟨?_, ?_, ?_, ?_, ?_⟩
          · rw [e1]
          · rw [e1]; dsimp only [mkResponse, freshResponse]
            simp [hCLf]
          · intro hx
            rw [e1] at hx; dsimp only [mkResponse, freshResponse] at hx
            rw [hCLf] at hx
            simp at hx
          · intro _
            simp only [bodyChunks, e1]
            dsimp only [mkResponse, freshResponse]
            refine ⟨mapValue_insert_self _ _ _ _, ?_⟩
            simp [chunkFrames]
          · intro _ hx
            rw [e1] at hx; dsimp only [mkResponse, freshResponse] at hx
            rw [mapContains_insert_self] at hx
            simp at hx

/-- C5 counterexample: a handler that sets `Content-Length: 5` itself
(a legal `setHeader` call) and then streams with a non-last first write
gets `Transfer-Encoding: chunked` added next to its `Content-Length`
header; both are emitted in the same header block, and the body bytes
on the wire (the chunk framing of `"ab"`, 12 bytes) do not equal 5. -/
theorem framing_mix_cex :
    HttpResponse.setHeaderOp freshResponse "Content-Length" "5"
      = some (mkResponse [("Content-Length", "5")])
    ∧ mapContains mixedFramingSt.headers "Content-Length" = true
    ∧ mapValue mixedFramingSt.headers "Content-Length" "" = "5"
    ∧ mapContains mixedFramingSt.headers "Transfer-Encoding" = true
    ∧ mapValue mixedFramingSt.headers "Transfer-Encoding" "" = "chunked"
    ∧ (String.join (mixedFramingSt.output.drop 1)).length ≠ 5 := by
  decide

/-- Witness for `framing_trichotomy` on the empty header map and a
single full-body write. -/
theorem framing_trichotomy_witness :
    (∀ p ∈ ([] : StrMap), ciEq p.1 "Content-Length" = false
        ∧ ciEq p.1 "Transfer-Encoding" = false)
    ∧ ((responseRun [] [("hi", true)]).sentLastPart = true
       ∧ ¬(mapContains (responseRun [] [("hi", true)]).headers
             "Content-Length" = true
           ∧ mapContains (responseRun [] [("hi", true)]).headers
             "Transfer-Encoding" = true)
       ∧ (mapContains (responseRun [] [("hi", true)]).headers
            "Content-Length" = true →
            mapValue (responseRun [] [("hi", true)]).headers "Content-Length" ""
              = toString (String.join (bodyChunks [] [("hi", true)])).length)
       ∧ (mapContains (responseRun [] [("hi", true)]).headers
            "Transfer-Encoding" = true →
            mapValue (responseRun [] [("hi", true)]).headers
              "Transfer-Encoding" "" = "chunked"
            ∧ bodyChunks [] [("hi", true)]
                = chunkFrames [("hi", true)] ++ ["0\r\n\r\n"])
       ∧ (mapContains (responseRun [] [("hi", true)]).headers
            "Content-Length" = false →
          mapContains (responseRun [] [("hi", true)]).headers
            "Transfer-Encoding" = false →
            reviseCloseConnection false
              (responseRun [] [("hi", true)]).headers = true)) :=
  ⟨by simp, framing_trichotomy [] [("hi", true)] (by simp)⟩
